import Mathlib

/-!
Shallow embedding of the BaanBoard backend (`src/backend/server.js`).

The MongoDB document store is modelled as in-memory lists of documents
(`List User`, `List Post`); `findById` / `findOne` become `List.find?`,
`findByIdAndUpdate` / `save` become an id-preserving map over the list,
`findByIdAndDelete` becomes a filter, `$push` an append, `$addToSet` a
guarded append, `$pull` a filter.  Mongo ObjectIds are modelled as `Nat`.
The bcrypt hash primitive is opaque in the design, so every operation that
hashes or compares passwords is parameterised by a `hash : String → String`
function (`bcrypt.compare pw stored` becomes `hash pw == stored`).
HTTP handlers return their status code together with the response body and
the updated stores.
-/

namespace BaanBoard

/-- Mongo ObjectId, modelled as a natural number. -/
abbrev Id := Nat

/-- `commentSchema`: an embedded comment document (`created_at` dropped:
no claim mentions comment timestamps). -/
structure Comment where
  text : String
  owner : Id
  deriving Repr, DecidableEq

/-- `postSchema`: a post document. `created_at` is a logical timestamp. -/
structure Post where
  id : Id
  title : String
  content : String
  image : Option String
  tag : String
  owner : Id
  likes : List Id
  comments : List Comment
  created_at : Nat
  deriving Repr, DecidableEq

/-- `userSchema`: a user document. -/
structure User where
  id : Id
  fullname : String
  email : String
  tel : String
  password : String
  profileImage : Option String
  role : String
  myPosts : List Id
  likedPosts : List Id
  commentedPosts : List Id
  deriving Repr, DecidableEq

/-- JavaScript truthiness of an optional string (`undefined` and `""` are
falsy); this is the test performed by `if (field)` in the handlers. -/
def truthy : Option String → Bool
  | none => false
  | some s => !(s == "")

/-- `POST /register`: reject a duplicate email with 400, otherwise hash
the password and `User.create` the document.  `fullname`, `email` and
`tel` are `required` String paths, and Mongoose's required check on a
String demands a non-empty value, so an empty field makes `User.create`
throw a validation error which the catch-all reports as 500 with nothing
stored.  Otherwise the user is created with the bcrypt-hashed password,
the uploaded image path (if any) and role `user`.  Returns the status
code and the updated user store; `freshId` is the ObjectId Mongo assigns
to the new document. -/
def register (hash : String → String) (users : List User)
    (fullname email tel password : String) (file : Option String)
    (freshId : Id) : Nat × List User :=
  match users.find? (fun u => u.email == email) with
  | some _ => (400, users)
  | none =>
      if fullname == "" || email == "" || tel == "" then (500, users)
      else
        let newUser : User :=
          { id := freshId, fullname := fullname, email := email, tel := tel,
            password := hash password, profileImage := file, role := "user",
            myPosts := [], likedPosts := [], commentedPosts := [] }
        (201, users ++ [newUser])

/-- The JWT payload signed by `POST /login`
(`{ id, role, fullname, email }`; expiry not modelled). -/
structure TokenPayload where
  id : Id
  role : String
  fullname : String
  email : String
  deriving Repr, DecidableEq

/-- The `user` object in a successful login response. -/
structure LoginUser where
  id : Id
  fullname : String
  role : String
  profileImage : Option String
  email : String
  tel : String
  deriving Repr, DecidableEq

/-- `POST /login`: look the user up by email; if the user is absent or
`bcrypt.compare` fails, answer 400 with no body (`"Invalid email or
password"` in both cases); otherwise answer 200 with the token payload and
the public user object. -/
def login (hash : String → String) (users : List User)
    (email password : String) : Nat × Option (TokenPayload × LoginUser) :=
  match users.find? (fun u => u.email == email) with
  | none => (400, none)
  | some user =>
      if hash password == user.password then
        (200, some
          ({ id := user.id, role := user.role, fullname := user.fullname,
             email := user.email },
           { id := user.id, fullname := user.fullname, role := user.role,
             profileImage := user.profileImage, email := user.email,
             tel := user.tel }))
      else (400, none)

/-- The document returned by `GET /my-profile`: the user with the
`password` path deselected and the three reference lists populated
(each id replaced by the post found in the store, `none` for a dangling
reference, as Mongoose `populate` yields `null`). -/
structure ProfileView where
  id : Id
  fullname : String
  email : String
  tel : String
  profileImage : Option String
  role : String
  myPosts : List Post
  likedPosts : List Post
  commentedPosts : List Post
  deriving Repr, DecidableEq

/-- Mongoose `populate` on an array of references: each id is replaced by
its document, and references whose document no longer exists are omitted
from the populated array. -/
def populate (posts : List Post) (ids : List Id) : List Post :=
  ids.filterMap (fun i => posts.find? (fun p => p.id == i))

/-- `GET /my-profile`: `findById(req.user.id).select('-password')` with the
three post-reference lists populated. -/
def myProfile (users : List User) (posts : List Post) (uid : Id) :
    Option ProfileView :=
  (users.find? (fun u => u.id == uid)).map (fun u =>
    { id := u.id, fullname := u.fullname, email := u.email, tel := u.tel,
      profileImage := u.profileImage, role := u.role,
      myPosts := populate posts u.myPosts,
      likedPosts := populate posts u.likedPosts,
      commentedPosts := populate posts u.commentedPosts })

/-- `PUT /profile`: build the `updates` object from the truthy body fields
(`fullname`, `tel`, `password` rehashed, uploaded file path) and apply it
to the authenticated user's document. -/
def updateProfile (hash : String → String) (u : User)
    (fullname tel password file : Option String) : User :=
  let u1 := if truthy fullname then { u with fullname := fullname.getD "" } else u
  let u2 := if truthy tel then { u1 with tel := tel.getD "" } else u1
  let u3 := if truthy password then { u2 with password := hash (password.getD "") } else u2
  if truthy file then { u3 with profileImage := file } else u3

/-- `POST /post`: `Post.create` with the body fields and `owner` from the
token, then `$push` the new id onto the creator's `myPosts`.  The handler
performs no validation of its own: when a required field (`title`,
`content`, `tag`) is absent — or present but empty, since Mongoose's
required check on a String path demands a non-empty value — `Post.create`
rejects the document with a validation error, which the catch-all turns
into a 500 response and nothing is stored. -/
def createPost (posts : List Post) (users : List User) (uid : Id)
    (title content tag file : Option String) (freshId : Id) (now : Nat) :
    Nat × List Post × List User :=
  match title, content, tag with
  | some t, some c, some g =>
      if t == "" || c == "" || g == "" then (500, posts, users)
      else
        let newPost : Post :=
          { id := freshId, title := t, content := c, tag := g, image := file,
            owner := uid, likes := [], comments := [], created_at := now }
        let users' := users.map (fun u =>
          if u.id == uid then { u with myPosts := u.myPosts ++ [freshId] } else u)
        (201, posts ++ [newPost], users')
  | _, _, _ => (500, posts, users)

/-- Case-folded character comparison, as done by the regex `i` option. -/
def charMatchCI (p t : Char) : Bool := p.toLower == t.toLower

/-- Match a regex pattern (restricted to literal characters and the `.`
metacharacter, the fragment relevant here) at the very start of the text,
case-insensitively: `.` matches any character, a literal matches up to
case. -/
def matchHere : List Char → List Char → Bool
  | [], _ => true
  | _ :: _, [] => false
  | p :: ps, t :: ts => (p == '.' || charMatchCI p t) && matchHere ps ts

/-- Unanchored regex search: try `matchHere` at every position. -/
def regexFind (pat : List Char) : List Char → Bool
  | [] => matchHere pat []
  | t :: ts => matchHere pat (t :: ts) || regexFind pat ts

/-- MongoDB `{ $regex: search, $options: 'i' }` applied to a title.  The
model is faithful only for patterns built from literal characters and the
`.` metacharacter; patterns using further regex syntax are outside the
model (see `patternModelled` below). -/
def regexMatchCI (pattern text : String) : Bool :=
  regexFind pattern.data text.data

/-- Match the needle at the very start of the haystack up to case. -/
def substrHere : List Char → List Char → Bool
  | [], _ => true
  | _ :: _, [] => false
  | p :: ps, t :: ts => charMatchCI p t && substrHere ps ts

/-- Case-insensitive substring search (every starting position). -/
def substrFind (pat : List Char) : List Char → Bool
  | [] => substrHere pat []
  | t :: ts => substrHere pat (t :: ts) || substrFind pat ts

/-- Spec-side definition (the claim's words): `needle` occurs in `hay` as
a case-insensitive substring.  Used only to compare against the code's
regex-based match. -/
def containsCI (needle hay : String) : Bool :=
  substrFind needle.data hay.data

/-- The characters ECMAScript regular expressions treat specially. -/
def regexSpecials : List Char :=
  ['\\', '^', '$', '.', '|', '?', '*', '+', '(', ')', '[', ']',
   '\x7b', '\x7d']

/-- Search strings inside the modelled regex fragment: every character is
an ordinary literal or the `.` wildcard.  Patterns with other
metacharacters (quantifiers, anchors, groups, classes, escapes) follow
full `$regex` semantics — or make the query throw — and lie outside the
`regexFind` model. -/
def patternModelled (s : String) : Bool :=
  s.data.all (fun c => !(regexSpecials.contains c) || c == '.')

/-- `GET /getpost`: filter by title regex when `search` is truthy and by
exact tag when `tag` is truthy, sort by `created_at` (descending when
`order_by === 'post_date'`, ascending otherwise), and annotate each post
with `likeCount = likes.length`. -/
def getpost (posts : List Post) (search tag order_by : Option String) :
    List (Post × Nat) :=
  let q1 := if truthy search
    then posts.filter (fun p => regexMatchCI (search.getD "") p.title)
    else posts
  let q2 := if truthy tag
    then q1.filter (fun p => p.tag == tag.getD "")
    else q1
  let sorted := if order_by == some "post_date"
    then q2.mergeSort (fun a b => b.created_at ≤ a.created_at)
    else q2.mergeSort (fun a b => a.created_at ≤ b.created_at)
  sorted.map (fun p => (p, p.likes.length))

/-- `DELETE /deletepost/:id`: 404 when the post is absent; 403 when the
actor is neither the owner nor an admin; otherwise delete the post and
`$pull` its id from the owner's `myPosts`. -/
def deletePost (posts : List Post) (users : List User)
    (uid : Id) (role : String) (pid : Id) :
    Nat × List Post × List User :=
  match posts.find? (fun p => p.id == pid) with
  | none => (404, posts, users)
  | some post =>
      if post.owner != uid && role != "admin" then (403, posts, users)
      else
        let posts' := posts.filter (fun p => !(p.id == pid))
        let users' := users.map (fun u =>
          if u.id == post.owner
          then { u with myPosts := u.myPosts.filter (fun i => !(i == pid)) }
          else u)
        (200, posts', users')

/-- `PUT /post/:id`: 404 when the post is absent; 403 when the actor is
neither the owner nor an admin; otherwise assign the truthy body fields
(`title`, `content`, `tag`, uploaded image path) and save the post. -/
def updatePost (posts : List Post) (uid : Id) (role : String) (pid : Id)
    (title content tag file : Option String) : Nat × List Post :=
  match posts.find? (fun p => p.id == pid) with
  | none => (404, posts)
  | some post =>
      if post.owner != uid && role != "admin" then (403, posts)
      else
        let p1 := if truthy title then { post with title := title.getD "" } else post
        let p2 := if truthy content then { p1 with content := content.getD "" } else p1
        let p3 := if truthy tag then { p2 with tag := tag.getD "" } else p2
        let p4 := if truthy file then { p3 with image := file } else p3
        (200, posts.map (fun q => if q.id == pid then p4 else q))

/-- `POST /post/:id/like`: 404 when the post is absent.  Otherwise
`findIndex` locates the user in `post.likes`; if absent (`index === -1`)
the id is pushed and `$addToSet` adds the post to the user's `likedPosts`;
if present, `splice(index, 1)` removes that first occurrence (= erase the
first occurrence) and `$pull` removes the post from `likedPosts`.  The
response carries the updated `likes.length`. -/
def toggleLike (posts : List Post) (users : List User) (uid pid : Id) :
    Nat × Option Nat × List Post × List User :=
  match posts.find? (fun p => p.id == pid) with
  | none => (404, none, posts, users)
  | some post =>
      if post.likes.contains uid then
        let post' := { post with likes := post.likes.erase uid }
        let posts' := posts.map (fun q => if q.id == pid then post' else q)
        let users' := users.map (fun u =>
          if u.id == uid
          then { u with likedPosts := u.likedPosts.filter (fun i => !(i == pid)) }
          else u)
        (200, some post'.likes.length, posts', users')
      else
        let post' := { post with likes := post.likes ++ [uid] }
        let posts' := posts.map (fun q => if q.id == pid then post' else q)
        let users' := users.map (fun u =>
          if u.id == uid
          then { u with likedPosts :=
                   if u.likedPosts.contains pid then u.likedPosts
                   else u.likedPosts ++ [pid] }
          else u)
        (200, some post'.likes.length, posts', users')

/-- `POST /post/:id/comment`: 404 when the post is absent.  The handler
pushes `{ text, owner: userId }` and calls `post.save()`: the embedded
comment schema marks `text` required, and Mongoose's required check on a
String demands a non-empty value, so an empty text makes `save` throw,
the catch-all answers 500 and nothing is persisted.  Otherwise the save
succeeds and `$addToSet` adds the post id to the user's
`commentedPosts`. -/
def addComment (posts : List Post) (users : List User) (uid pid : Id)
    (text : String) : Nat × List Post × List User :=
  match posts.find? (fun p => p.id == pid) with
  | none => (404, posts, users)
  | some post =>
      if text == "" then (500, posts, users)
      else
      let post' := { post with comments := post.comments ++ [{ text := text, owner := uid }] }
      let posts' := posts.map (fun q => if q.id == pid then post' else q)
      let users' := users.map (fun u =>
        if u.id == uid
        then { u with commentedPosts :=
                 if u.commentedPosts.contains pid then u.commentedPosts
                 else u.commentedPosts ++ [pid] }
        else u)
      (201, posts', users')

/-- `n` successive `toggleLike` requests by the same user on the same
post. -/
def iterToggle (uid pid : Id) : Nat → List Post × List User → List Post × List User
  | 0, s => s
  | n + 1, (posts, users) =>
      let r := toggleLike posts users uid pid
      iterToggle uid pid n (r.2.2.1, r.2.2.2)

/-- Successive `addComment` requests by the same user on the same post,
one per text in `ts`. -/
def iterComment (uid pid : Id) : List String → List Post × List User → List Post × List User
  | [], s => s
  | t :: ts, (posts, users) =>
      let r := addComment posts users uid pid t
      iterComment uid pid ts (r.2.1, r.2.2)

/-! ### Helper lemmas -/

/-- `find?` by key through an id-preserving in-place map (the model of a
Mongoose `save` / `findByIdAndUpdate`): the found document is the updated
one. -/
theorem find?_map_ite {α : Type} (key : α → Id) (k : Id) (g : α → α) (l : List α)
    (hg : ∀ x, (key x == k) = true → (key (g x) == k) = true) :
    (l.map (fun x => if key x == k then g x else x)).find? (fun x => key x == k)
      = (l.find? (fun x => key x == k)).map g := by
  induction l with
  | nil => rfl
  | cons a l ih =>
      by_cases h : (key a == k) = true
      · rw [List.map_cons, if_pos h,
          List.find?_cons_of_pos (p := fun x => key x == k) _ (hg a h),
          List.find?_cons_of_pos (p := fun x => key x == k) _ h,
          Option.map_some']
      · rw [List.map_cons, if_neg h,
          List.find?_cons_of_neg (p := fun x => key x == k) _ h,
          List.find?_cons_of_neg (p := fun x => key x == k) _ h, ih]

/-- Removing every occurrence of `pid` leaves a list in which `pid` is
counted zero times. -/
theorem count_filter_ne (l : List Id) (pid : Id) :
    (l.filter (fun i => !(i == pid))).count pid = 0 := by
  refine List.count_eq_zero.mpr (fun h => ?_)
  have := (List.mem_filter.mp h).2
  simp at this

/-! ### Witness fixtures -/

/-- A sample post used by the concrete witnesses. -/
def post1 : Post :=
  { id := 1, title := "Football news", content := "c", image := none,
    tag := "Sport", owner := 5, likes := [], comments := [], created_at := 0 }

/-- A sample user, the owner of `post1`. -/
def user5 : User :=
  { id := 5, fullname := "Ann", email := "ann@x.com", tel := "02",
    password := "Hsecret", profileImage := none, role := "user",
    myPosts := [1], likedPosts := [], commentedPosts := [] }

/-! ### C2: existence is checked before permission -/

/-- C2: for both post-mutating handlers (`PUT /post/:id` and
`DELETE /deletepost/:id`), a missing post yields 404 for every actor
(admins included) with the stores unchanged, and an existing post with an
actor who is neither owner nor admin yields 403 with the stores
unchanged. -/
theorem notFound_before_forbidden
    (posts : List Post) (users : List User) (uid : Id) (role : String)
    (pid : Id) (title content tag file : Option String) :
    (posts.find? (fun p => p.id == pid) = none →
      deletePost posts users uid role pid = (404, posts, users) ∧
      updatePost posts uid role pid title content tag file = (404, posts)) ∧
    (∀ post, posts.find? (fun p => p.id == pid) = some post →
      post.owner ≠ uid → role ≠ "admin" →
      deletePost posts users uid role pid = (403, posts, users) ∧
      updatePost posts uid role pid title content tag file = (403, posts)) := by
  constructor
  · intro h
    constructor <;> simp [deletePost, updatePost, h]
  · intro post h h1 h2
    constructor <;> simp [deletePost, updatePost, h, h1, h2]

/-- Witness for C2: a store holding only `post1` (id 1), an actor with id
7 and role `user`: post id 2 is absent and yields 404, post id 1 exists
but is owned by 5 and yields 403. -/
theorem notFound_before_forbidden_witness :
    (deletePost [post1] [user5] 7 "user" 2 = (404, [post1], [user5]) ∧
      updatePost [post1] 7 "user" 2 none none none none = (404, [post1])) ∧
    (deletePost [post1] [user5] 7 "user" 1 = (403, [post1], [user5]) ∧
      updatePost [post1] 7 "user" 1 none none none none = (403, [post1])) := by
  refine ⟨(notFound_before_forbidden [post1] [user5] 7 "user" 2
      none none none none).1 (by decide), ?_⟩
  exact (notFound_before_forbidden [post1] [user5] 7 "user" 1
      none none none none).2 post1 (by decide) (by decide) (by decide)

/-! ### C3: create-post validation failures -/

/-- C3 counterexample: a create-post request with `title` absent is
answered with status 500 (the Mongoose validation error falls into the
generic catch-all), not the 400 the claim states. -/
theorem createPost_missing_field_not_400 :
    (createPost [] [] 7 none (some "c") (some "Sport") none 1 0).1 = 500 ∧
    (createPost [] [] 7 none (some "c") (some "Sport") none 1 0).1 ≠ 400 := by
  decide

/-- C3 amended: when any of `title`, `content`, `tag` is absent, create
fails with status 500 (the handler has no validation of its own; the
store-level validation error is caught by the generic handler) and neither
store changes — in particular no post is created. -/
theorem createPost_missing_field_500
    (posts : List Post) (users : List User) (uid : Id)
    (title content tag file : Option String) (freshId : Id) (now : Nat)
    (h : title = none ∨ content = none ∨ tag = none) :
    createPost posts users uid title content tag file freshId now
      = (500, posts, users) := by
  rcases h with h | h | h <;> subst h
  · cases content <;> cases tag <;> rfl
  · cases title <;> cases tag <;> rfl
  · cases title <;> cases content <;> rfl

/-- Witness for C3's amended theorem: the concrete request of the
counterexample. -/
theorem createPost_missing_field_500_witness :
    createPost [] [] 7 none (some "c") (some "Sport") none 1 0
      = (500, [], []) :=
  createPost_missing_field_500 [] [] 7 none (some "c") (some "Sport")
    none 1 0 (Or.inl rfl)

/-! ### C4: login error outcomes -/

/-- C4 counterexample: with an empty user store (no record has the email),
login answers 400 — the same `Invalid email or password` response as a
password mismatch — not the distinct 404/NotFound the claim states. -/
theorem login_unknown_email_not_404 :
    (login (fun s => String.append "H" s) [] "ann@x.com" "pw").1 = 400 ∧
    (login (fun s => String.append "H" s) [] "ann@x.com" "pw").1 ≠ 404 := by
  decide

/-- C4 amended: an unknown email and a wrong password both produce the
same 400 response with no body (the two outcomes are not distinct), and
the password check is a hash comparison against the stored hash only:
login succeeds exactly when the hash of the supplied password equals the
stored hash. -/
theorem login_error_cases (hash : String → String) (users : List User)
    (email password : String) :
    (users.find? (fun u => u.email == email) = none →
      login hash users email password = (400, none)) ∧
    (∀ user, users.find? (fun u => u.email == email) = some user →
      hash password ≠ user.password →
      login hash users email password = (400, none)) ∧
    (∀ user, users.find? (fun u => u.email == email) = some user →
      hash password = user.password →
      (login hash users email password).1 = 200) := by
  refine ⟨fun h => by simp [login, h], fun user h hne => ?_, fun user h he => ?_⟩
  · simp [login, h, hne]
  · simp [login, h, he]

/-- Witness for C4's amended theorem: a store holding `user5` (stored hash
`Hsecret` = hash of `secret` under the sample hash): an unknown email and
a wrong password both give `(400, none)`, the right password gives 200. -/
theorem login_error_cases_witness :
    login (fun s => String.append "H" s) [user5] "bob@x.com" "secret"
      = (400, none) ∧
    login (fun s => String.append "H" s) [user5] "ann@x.com" "wrong"
      = (400, none) ∧
    (login (fun s => String.append "H" s) [user5] "ann@x.com" "secret").1
      = 200 := by
  refine ⟨(login_error_cases (fun s => String.append "H" s) [user5]
      "bob@x.com" "secret").1 (by decide), ?_, ?_⟩
  · exact (login_error_cases (fun s => String.append "H" s) [user5]
      "ann@x.com" "wrong").2.1 user5 (by decide) (by decide)
  · exact (login_error_cases (fun s => String.append "H" s) [user5]
      "ann@x.com" "secret").2.2 user5 (by decide) (by decide)

/-! ### C8: registration -/

/-- C8 counterexample: with no duplicate present (empty store), a
registration with empty `fullname` fails the schema's required-field
validation — the handler answers 500 and no user is created — rather than
creating exactly one user as the claim states for every non-duplicate
request. -/
theorem register_empty_required_not_created :
    register (fun s => String.append "H" s) [] "" "bob@x.com" "03" "pw"
      none 9 = (500, []) ∧
    (register (fun s => String.append "H" s) [] "" "bob@x.com" "03" "pw"
      none 9).1 ≠ 201 := by
  decide

/-- C8 amended: a registration whose email is already present fails with
400 leaving the user store unchanged; a non-duplicate registration with
an empty `fullname`, `email` or `tel` fails the schema's required-field
validation, reported 500 by the catch-all, with the store unchanged;
otherwise exactly one user is appended, its stored password is the hash
of the supplied password (not the plaintext) and its role is `user`. -/
theorem register_spec (hash : String → String) (users : List User)
    (fullname email tel password : String) (file : Option String)
    (freshId : Id) :
    (∀ u, users.find? (fun v => v.email == email) = some u →
      register hash users fullname email tel password file freshId
        = (400, users)) ∧
    (users.find? (fun v => v.email == email) = none →
      (fullname = "" ∨ email = "" ∨ tel = "") →
      register hash users fullname email tel password file freshId
        = (500, users)) ∧
    (users.find? (fun v => v.email == email) = none →
      fullname ≠ "" → email ≠ "" → tel ≠ "" →
      register hash users fullname email tel password file freshId
        = (201, users ++
            [{ id := freshId, fullname := fullname, email := email,
               tel := tel, password := hash password, profileImage := file,
               role := "user", myPosts := [], likedPosts := [],
               commentedPosts := [] }])) := by
  refine ⟨fun u h => by simp [register, h], fun h hv => ?_,
    fun h h1 h2 h3 => ?_⟩
  · rcases hv with hv | hv | hv <;> subst hv <;> simp [register, h]
  · simp [register, h, h1, h2, h3]

/-- Witness for C8's amended theorem: against a store holding `user5`,
re-registering `ann@x.com` fails with 400 and the store is unchanged; a
fresh email with an empty fullname fails with 500 and the store is
unchanged; a fresh email with all required fields present appends exactly
the new user with hashed password and role `user`. -/
theorem register_spec_witness :
    register (fun s => String.append "H" s) [user5] "Bob" "ann@x.com"
      "03" "pw" none 9 = (400, [user5]) ∧
    register (fun s => String.append "H" s) [user5] "" "bob@x.com"
      "03" "pw" none 9 = (500, [user5]) ∧
    register (fun s => String.append "H" s) [user5] "Bob" "bob@x.com"
      "03" "pw" none 9
      = (201, [user5] ++
          [{ id := 9, fullname := "Bob", email := "bob@x.com", tel := "03",
             password := String.append "H" "pw", profileImage := none,
             role := "user", myPosts := [], likedPosts := [],
             commentedPosts := [] }]) := by
  refine ⟨(register_spec (fun s => String.append "H" s) [user5] "Bob"
      "ann@x.com" "03" "pw" none 9).1 user5 (by decide), ?_, ?_⟩
  · exact (register_spec (fun s => String.append "H" s) [user5] ""
      "bob@x.com" "03" "pw" none 9).2.1 (by decide) (Or.inl rfl)
  · exact (register_spec (fun s => String.append "H" s) [user5] "Bob"
      "bob@x.com" "03" "pw" none 9).2.2 (by decide) (by decide) (by decide)
      (by decide)

/-! ### C7: partial updates touch only the supplied fields -/

/-- C7: profile update sets exactly the truthy-supplied fields (`fullname`,
`tel`, `password` rehashed, uploaded image) and leaves every other field —
and every absent or falsy field — unchanged; post update, when the post
exists and the actor is permitted, replaces the post by a copy in which
only the truthy-supplied fields (`title`, `content`, `tag`, image) differ,
leaving `owner`, `likes`, `comments`, `id`, `created_at` and every other
post untouched. -/
theorem partial_update_frame (hash : String → String) (u : User)
    (fullname tel password file : Option String)
    (posts : List Post) (uid : Id) (role : String) (pid : Id)
    (title content tag pfile : Option String) :
    ((updateProfile hash u fullname tel password file).fullname
        = (if truthy fullname then fullname.getD "" else u.fullname) ∧
     (updateProfile hash u fullname tel password file).tel
        = (if truthy tel then tel.getD "" else u.tel) ∧
     (updateProfile hash u fullname tel password file).password
        = (if truthy password then hash (password.getD "") else u.password) ∧
     (updateProfile hash u fullname tel password file).profileImage
        = (if truthy file then file else u.profileImage) ∧
     (updateProfile hash u fullname tel password file).id = u.id ∧
     (updateProfile hash u fullname tel password file).email = u.email ∧
     (updateProfile hash u fullname tel password file).role = u.role ∧
     (updateProfile hash u fullname tel password file).myPosts = u.myPosts ∧
     (updateProfile hash u fullname tel password file).likedPosts = u.likedPosts ∧
     (updateProfile hash u fullname tel password file).commentedPosts
        = u.commentedPosts) ∧
    (∀ post, posts.find? (fun p => p.id == pid) = some post →
      post.owner = uid ∨ role = "admin" →
      updatePost posts uid role pid title content tag pfile
        = (200, posts.map (fun q => if q.id == pid then
            { post with
              title := if truthy title then title.getD "" else post.title,
              content := if truthy content then content.getD "" else post.content,
              tag := if truthy tag then tag.getD "" else post.tag,
              image := if truthy pfile then pfile else post.image }
            else q))) := by
  constructor
  · by_cases h1 : truthy fullname <;> by_cases h2 : truthy tel <;>
      by_cases h3 : truthy password <;> by_cases h4 : truthy file <;>
      simp [updateProfile, h1, h2, h3, h4]
  · intro post hp hperm
    have hperm' : (post.owner != uid && role != "admin") = false := by
      rcases hperm with h | h <;> simp [h]
    by_cases h1 : truthy title <;> by_cases h2 : truthy content <;>
      by_cases h3 : truthy tag <;> by_cases h4 : truthy pfile <;>
      simp [updatePost, hp, hperm', h1, h2, h3, h4]

/-- Witness for C7: a profile update supplying only `tel` changes only
`tel`; a post update by the owner supplying only `content` changes only
`content` of the targeted post. -/
theorem partial_update_frame_witness :
    ((updateProfile (fun s => String.append "H" s) user5
        none (some "09") none none).fullname
      = (if truthy none then Option.getD none "" else user5.fullname)) ∧
    updatePost [post1] 5 "user" 1 none (some "new") none none
      = (200, [post1].map (fun q => if q.id == 1 then
          { post1 with
            title := if truthy none then Option.getD none "" else post1.title,
            content := if truthy (some "new") then Option.getD (some "new") ""
              else post1.content,
            tag := if truthy none then Option.getD none "" else post1.tag,
            image := if truthy none then none else post1.image }
          else q)) := by
  refine ⟨(partial_update_frame (fun s => String.append "H" s) user5
      none (some "09") none none [post1] 5 "user" 1
      none (some "new") none none).1.1, ?_⟩
  exact (partial_update_frame (fun s => String.append "H" s) user5
      none (some "09") none none [post1] 5 "user" 1
      none (some "new") none none).2 post1 (by decide) (Or.inl (by decide))

/-! ### C10: responses never carry the stored password hash -/

/-- Every field of a user except the stored password hash. -/
structure PublicData where
  id : Id
  fullname : String
  email : String
  tel : String
  profileImage : Option String
  role : String
  myPosts : List Id
  likedPosts : List Id
  commentedPosts : List Id
  deriving Repr, DecidableEq

/-- Projection of a user onto its non-password fields. -/
def scrub (u : User) : PublicData :=
  { id := u.id, fullname := u.fullname, email := u.email, tel := u.tel,
    profileImage := u.profileImage, role := u.role, myPosts := u.myPosts,
    likedPosts := u.likedPosts, commentedPosts := u.commentedPosts }

/-- Evaluation of `login` when the email lookup succeeds. -/
theorem login_eq_found (hash : String → String) (users : List User)
    (email password : String) (user : User)
    (hf : users.find? (fun u => u.email == email) = some user) :
    login hash users email password
      = if hash password == user.password
        then (200, some
          ({ id := user.id, role := user.role, fullname := user.fullname,
             email := user.email },
           { id := user.id, fullname := user.fullname, role := user.role,
             profileImage := user.profileImage, email := user.email,
             tel := user.tel }))
        else (400, none) := by
  simp only [login, hf]

/-- Evaluation of `login` when the email lookup fails. -/
theorem login_eq_not_found (hash : String → String) (users : List User)
    (email password : String)
    (hf : users.find? (fun u => u.email == email) = none) :
    login hash users email password = (400, none) := by
  simp only [login, hf]

/-- C10: the login and my-profile responses are functions of the user's
non-password fields only.  If two users agree on everything except the
stored password hash, the my-profile response is identical for both, and
any two successful login responses (even under different hash functions
and supplied passwords) carry identical bodies — so neither response can
encode the stored hash.  (Structurally, the login body consists of the
token payload `id, role, fullname, email` and the public user object
`id, fullname, role, profileImage, email, tel`, and the profile view has
no password field at all.) -/
theorem responses_never_leak_password
    (hash1 hash2 : String → String) (u1 u2 : User) (rest : List User)
    (posts : List Post) (uid : Id) (email pw1 pw2 : String)
    (h : scrub u1 = scrub u2) :
    myProfile (u1 :: rest) posts uid = myProfile (u2 :: rest) posts uid ∧
    (∀ b1 b2, (login hash1 (u1 :: rest) email pw1).2 = some b1 →
      (login hash2 (u2 :: rest) email pw2).2 = some b2 → b1 = b2) := by
  have hid : u1.id = u2.id := congrArg PublicData.id h
  have hfn : u1.fullname = u2.fullname := congrArg PublicData.fullname h
  have hem : u1.email = u2.email := congrArg PublicData.email h
  have htl : u1.tel = u2.tel := congrArg PublicData.tel h
  have hpi : u1.profileImage = u2.profileImage := congrArg PublicData.profileImage h
  have hrl : u1.role = u2.role := congrArg PublicData.role h
  have hmp : u1.myPosts = u2.myPosts := congrArg PublicData.myPosts h
  have hlp : u1.likedPosts = u2.likedPosts := congrArg PublicData.likedPosts h
  have hcp : u1.commentedPosts = u2.commentedPosts := congrArg PublicData.commentedPosts h
  constructor
  · by_cases hu : (u1.id == uid) = true
    · have hu2 : (u2.id == uid) = true := by rw [← hid]; exact hu
      simp only [myProfile]
      rw [List.find?_cons_of_pos (a := u1) rest hu,
        List.find?_cons_of_pos (a := u2) rest hu2]
      simp [hid, hfn, hem, htl, hpi, hrl, hmp, hlp, hcp]
    · have hu2 : ¬(u2.id == uid) = true := by rw [← hid]; exact hu
      simp only [myProfile]
      rw [List.find?_cons_of_neg (a := u1) rest hu,
        List.find?_cons_of_neg (a := u2) rest hu2]
  · intro b1 b2 hb1 hb2
    by_cases he : (u1.email == email) = true
    · have he2 : (u2.email == email) = true := by rw [← hem]; exact he
      rw [login_eq_found hash1 (u1 :: rest) email pw1 u1
        (List.find?_cons_of_pos (a := u1) rest he)] at hb1
      rw [login_eq_found hash2 (u2 :: rest) email pw2 u2
        (List.find?_cons_of_pos (a := u2) rest he2)] at hb2
      split at hb1
      · split at hb2
        · rw [← Option.some.inj hb1, ← Option.some.inj hb2]
          simp [Prod.ext_iff, TokenPayload.mk.injEq, LoginUser.mk.injEq,
            hid, hfn, hem, htl, hpi, hrl]
        · simp at hb2
      · simp at hb1
    · have he2 : ¬(u2.email == email) = true := by rw [← hem]; exact he
      cases hfr : List.find? (fun u => u.email == email) rest with
      | none =>
          rw [login_eq_not_found hash1 (u1 :: rest) email pw1
            (by rw [List.find?_cons_of_neg (a := u1) rest he]; exact hfr)] at hb1
          simp at hb1
      | some w =>
          rw [login_eq_found hash1 (u1 :: rest) email pw1 w
            (by rw [List.find?_cons_of_neg (a := u1) rest he]; exact hfr)] at hb1
          rw [login_eq_found hash2 (u2 :: rest) email pw2 w
            (by rw [List.find?_cons_of_neg (a := u2) rest he2]; exact hfr)] at hb2
          split at hb1
          · split at hb2
            · rw [← Option.some.inj hb1, ← Option.some.inj hb2]
            · simp at hb2
          · simp at hb1

/-- Witness for C10: two concrete users identical except for the stored
hash give the same profile view, and their successful login bodies (under
different hash functions and passwords) are equal. -/
theorem responses_never_leak_password_witness :
    myProfile [user5] [] 5
      = myProfile [{ user5 with password := "Kother" }] [] 5 ∧
    ({ id := 5, role := "user", fullname := "Ann", email := "ann@x.com" },
     { id := 5, fullname := "Ann", role := "user", profileImage := none,
       email := "ann@x.com", tel := "02" })
      = (({ id := 5, role := "user", fullname := "Ann", email := "ann@x.com" },
          { id := 5, fullname := "Ann", role := "user", profileImage := none,
            email := "ann@x.com", tel := "02" }) :
          TokenPayload × LoginUser) := by
  refine ⟨(responses_never_leak_password (fun s => String.append "H" s)
      (fun s => String.append "K" s) user5 { user5 with password := "Kother" }
      [] [] 5 "ann@x.com" "secret" "other" (by decide)).1, ?_⟩
  exact (responses_never_leak_password (fun s => String.append "H" s)
      (fun s => String.append "K" s) user5 { user5 with password := "Kother" }
      [] [] 5 "ann@x.com" "secret" "other" (by decide)).2
    _ _ (by decide) (by decide)

/-! ### C5: append-always comments, add-to-set commentedPosts -/

/-- C5 counterexample: one comment call (`n = 1`) with empty text: the
embedded comment's required-text validation makes `post.save()` throw,
the handler answers 500 and persists nothing, so afterwards `p.comments`
holds zero — not exactly `n = 1` — comments owned by the user and
`u.commentedPosts` does not mention the post. -/
theorem addComment_empty_text_not_appended :
    addComment [post1] [user5] 5 1 "" = (500, [post1], [user5]) ∧
    (iterComment 5 1 [""] ([post1], [user5])).1.find? (fun p => p.id == 1)
      = some post1 ∧
    post1.comments.countP (fun c => c.owner == 5) = 0 ∧
    (iterComment 5 1 [""] ([post1], [user5])).2.find? (fun u => u.id == 5)
      = some user5 ∧
    user5.commentedPosts.count 1 = 0 := by
  decide

/-- Invariant carried through a run of `addComment` calls by `uid` on
`pid` with non-empty texts: the post accumulates one appended comment per
call in order, and the user's `commentedPosts` counts `pid` exactly once
as soon as at least one call happened. -/
theorem iterComment_invariant (uid pid : Id) (ts : List String) :
    ∀ (posts : List Post) (users : List User) (post : Post) (user : User),
    (∀ t ∈ ts, t ≠ "") →
    posts.find? (fun p => p.id == pid) = some post →
    users.find? (fun u => u.id == uid) = some user →
    user.commentedPosts.count pid ≤ 1 →
    ∃ post' user',
      (iterComment uid pid ts (posts, users)).1.find? (fun p => p.id == pid)
        = some post' ∧
      (iterComment uid pid ts (posts, users)).2.find? (fun u => u.id == uid)
        = some user' ∧
      post'.comments = post.comments
        ++ ts.map (fun t => ({ text := t, owner := uid } : Comment)) ∧
      user'.commentedPosts.count pid
        = (if ts.isEmpty then user.commentedPosts.count pid else 1) ∧
      user'.commentedPosts.count pid ≤ 1 := by
  induction ts with
  | nil =>
      intro posts users post user _ hp hu hc
      exact ⟨post, user, hp, hu, by simp, by simp, hc⟩
  | cons t ts ih =>
      intro posts users post user hts hp hu hc
      have hpid : (post.id == pid) = true :=
        List.find?_some (p := fun q : Post => q.id == pid) hp
      have htb : (t == "") = false := by
        simpa using hts t (List.mem_cons_self t ts)
      have hp1 : ((addComment posts users uid pid t).2.1).find?
          (fun p => p.id == pid)
          = some { post with
              comments := post.comments ++ [{ text := t, owner := uid }] } := by
        simp only [addComment, hp, htb, Bool.false_eq_true, if_false]
        rw [find?_map_ite Post.id pid
          (fun _ => { post with
            comments := post.comments ++ [{ text := t, owner := uid }] })
          posts (fun x _ => hpid), hp]
        rfl
      clear hpid
      have hu1 : ((addComment posts users uid pid t).2.2).find?
          (fun u => u.id == uid)
          = some { user with commentedPosts :=
              if user.commentedPosts.contains pid then user.commentedPosts
              else user.commentedPosts ++ [pid] } := by
        simp only [addComment, hp, htb, Bool.false_eq_true, if_false]
        rw [find?_map_ite User.id uid
          (fun u => { u with commentedPosts :=
            if u.commentedPosts.contains pid then u.commentedPosts
            else u.commentedPosts ++ [pid] })
          users (fun x hx => hx), hu]
        rfl
      have hcnt : ({ user with commentedPosts :=
          if user.commentedPosts.contains pid then user.commentedPosts
          else user.commentedPosts ++ [pid] } : User).commentedPosts.count pid
          = 1 := by
        by_cases hin : user.commentedPosts.contains pid = true
        · have hmem : pid ∈ user.commentedPosts := by simpa using hin
          have h1 : 1 ≤ user.commentedPosts.count pid :=
            List.count_pos_iff.mpr hmem
          simp only [hin, if_true]
          omega
        · have hmem : pid ∉ user.commentedPosts := by simpa using hin
          have h0 : user.commentedPosts.count pid = 0 :=
            List.count_eq_zero_of_not_mem hmem
          simp only [hin, if_false, Bool.false_eq_true]
          rw [List.count_append, h0, List.count_singleton]
          simp
      obtain ⟨post', user', h1, h2, h3, h4, h5⟩ :=
        ih (addComment posts users uid pid t).2.1
          (addComment posts users uid pid t).2.2
          { post with comments := post.comments ++ [{ text := t, owner := uid }] }
          { user with commentedPosts :=
              if user.commentedPosts.contains pid then user.commentedPosts
              else user.commentedPosts ++ [pid] }
          (fun r hr => hts r (List.mem_cons_of_mem t hr))
          hp1 hu1 (by rw [hcnt])
      refine ⟨post', user', ?_, ?_, ?_, ?_, h5⟩
      · simpa only [iterComment] using h1
      · simpa only [iterComment] using h2
      · rw [h3]
        simp [List.append_assoc]
      · rw [h4, hcnt]
        by_cases hts : ts.isEmpty <;> simp [hts]

/-- C5 amended: after `n ≥ 1` comment calls with non-empty texts by user
`u` on post `p` (texts `ts`, from a state in which `u` has no comment on
`p` and `p` is not yet in `u.commentedPosts`), `p.comments` holds exactly
`n = ts.length` comments owned by `u`, appended in call order, while
`p`'s id occurs exactly once in `u.commentedPosts` however large `n` is.
(A call with empty text fails the embedded required-text validation:
500, nothing persisted — see the counterexample.) -/
theorem addComment_semantics (posts : List Post) (users : List User)
    (uid pid : Id) (post : Post) (user : User) (ts : List String)
    (hts : ∀ t ∈ ts, t ≠ "")
    (hp : posts.find? (fun p => p.id == pid) = some post)
    (hu : users.find? (fun u => u.id == uid) = some user)
    (hc0 : post.comments.countP (fun c => c.owner == uid) = 0)
    (hs0 : user.commentedPosts.count pid = 0)
    (hne : ts ≠ []) :
    ∃ post' user',
      (iterComment uid pid ts (posts, users)).1.find? (fun p => p.id == pid)
        = some post' ∧
      (iterComment uid pid ts (posts, users)).2.find? (fun u => u.id == uid)
        = some user' ∧
      post'.comments = post.comments
        ++ ts.map (fun t => ({ text := t, owner := uid } : Comment)) ∧
      post'.comments.countP (fun c => c.owner == uid) = ts.length ∧
      user'.commentedPosts.count pid = 1 := by
  obtain ⟨post', user', h1, h2, h3, h4, h5⟩ :=
    iterComment_invariant uid pid ts posts users post user hts hp hu (by omega)
  refine ⟨post', user', h1, h2, h3, ?_, ?_⟩
  · rw [h3, List.countP_append, hc0]
    simp [List.countP_map, Function.comp]
  · cases ts with
    | nil => exact absurd rfl hne
    | cons t ts => simpa using h4

/-- Witness for C5: two comments by user 5 on post 1. -/
theorem addComment_semantics_witness :
    ∃ post' user',
      (iterComment 5 1 ["hi", "yo"] ([post1], [user5])).1.find?
        (fun p => p.id == 1) = some post' ∧
      (iterComment 5 1 ["hi", "yo"] ([post1], [user5])).2.find?
        (fun u => u.id == 5) = some user' ∧
      post'.comments = post1.comments
        ++ ["hi", "yo"].map (fun t => ({ text := t, owner := 5 } : Comment)) ∧
      post'.comments.countP (fun c => c.owner == 5) = (["hi", "yo"] : List String).length ∧
      user'.commentedPosts.count 1 = 1 :=
  addComment_semantics [post1] [user5] 5 1 post1 user5 ["hi", "yo"]
    (by decide) (by decide) (by decide) (by decide) (by decide) (by decide)

/-! ### C6: delete removes the post and cleans the owner's references -/

/-- C6: a permitted delete (owner or admin) answers 200, removes the post
from the store (any later lookup of the id — here `toggleLike` — reports
404), removes the id from the owner's `myPosts` even when the actor is an
admin, and the post no longer occurs in the global listing. -/
theorem deletePost_cleanup (posts : List Post) (users : List User)
    (uid : Id) (role : String) (pid : Id) (post : Post)
    (hp : posts.find? (fun p => p.id == pid) = some post)
    (hperm : post.owner = uid ∨ role = "admin") :
    (deletePost posts users uid role pid).1 = 200 ∧
    (deletePost posts users uid role pid).2.1.find? (fun p => p.id == pid)
      = none ∧
    (∀ u ∈ (deletePost posts users uid role pid).2.2,
      u.id = post.owner → pid ∉ u.myPosts) ∧
    (∀ x ∈ getpost (deletePost posts users uid role pid).2.1 none none none,
      x.1.id ≠ pid) ∧
    (toggleLike (deletePost posts users uid role pid).2.1
      (deletePost posts users uid role pid).2.2 uid pid).1 = 404 := by
  have hperm' : (post.owner != uid && role != "admin") = false := by
    rcases hperm with h | h <;> simp [h]
  have hres : deletePost posts users uid role pid
      = (200, posts.filter (fun p => !(p.id == pid)),
         users.map (fun u => if u.id == post.owner
           then { u with myPosts := u.myPosts.filter (fun i => !(i == pid)) }
           else u)) := by
    simp only [deletePost, hp, hperm']
    rfl
  have hnone : (posts.filter (fun p => !(p.id == pid))).find?
      (fun p => p.id == pid) = none := by
    apply List.find?_eq_none.mpr
    intro x hx
    have := (List.mem_filter.mp hx).2
    simpa using this
  rw [hres]
  refine ⟨rfl, hnone, ?_, ?_, ?_⟩
  · intro u hu hid
    obtain ⟨v, hv, huv⟩ := List.mem_map.mp hu
    by_cases h : (v.id == post.owner) = true
    · rw [if_pos h] at huv
      subst huv
      intro hmem
      have := (List.mem_filter.mp hmem).2
      simp at this
    · rw [if_neg h] at huv
      subst huv
      exact absurd hid (by simpa using h)
  · intro x hx
    simp only [getpost, truthy] at hx
    simp only [if_neg (by decide : ¬((none : Option String) == some "post_date") = true)] at hx
    obtain ⟨p, hpmem, hxp⟩ := List.mem_map.mp hx
    have hp' := List.mem_mergeSort.mp hpmem
    have hne := (List.mem_filter.mp hp').2
    rw [← hxp]
    simpa using hne
  · simp [toggleLike, hnone]

/-- Witness for C6: the owner (id 5) deletes post 1 from a store holding
only that post. -/
theorem deletePost_cleanup_witness :
    (deletePost [post1] [user5] 5 "user" 1).1 = 200 ∧
    (deletePost [post1] [user5] 5 "user" 1).2.1.find? (fun p => p.id == 1)
      = none ∧
    (∀ u ∈ (deletePost [post1] [user5] 5 "user" 1).2.2,
      u.id = post1.owner → 1 ∉ u.myPosts) ∧
    (∀ x ∈ getpost (deletePost [post1] [user5] 5 "user" 1).2.1 none none none,
      x.1.id ≠ 1) ∧
    (toggleLike (deletePost [post1] [user5] 5 "user" 1).2.1
      (deletePost [post1] [user5] 5 "user" 1).2.2 5 1).1 = 404 :=
  deletePost_cleanup [post1] [user5] 5 "user" 1 post1 (by decide)
    (Or.inl (by decide))

/-! ### C9: search is a regex match, not plain substring containment -/

/-- A post whose two-character title exercises the `.` metacharacter. -/
def postAB : Post :=
  { id := 2, title := "ab", content := "c", image := none, tag := "Misc",
    owner := 5, likes := [], comments := [], created_at := 0 }

/-- C9 counterexample: searching for `a.` returns the post titled `ab`,
yet `a.` is not a (case-insensitive) substring of `ab` — `$regex` treats
`.` as a metacharacter, so the match is not plain substring containment
for every input. -/
theorem getpost_search_not_plain_substring :
    (postAB, 0) ∈ getpost [postAB] (some "a.") none none ∧
    containsCI "a." "ab" = false := by
  constructor
  · simp only [getpost]
    rw [if_pos (by decide : truthy (some "a.") = true)]
    rw [if_neg (by decide : ¬(truthy (none : Option String)) = true)]
    rw [if_neg (by decide :
      ¬((none : Option String) == some "post_date") = true)]
    apply List.mem_map.mpr
    refine ⟨postAB, List.mem_mergeSort.mpr ?_, rfl⟩
    apply List.mem_filter.mpr
    exact ⟨List.mem_singleton.mpr rfl, by decide⟩
  · decide

/-- On patterns without the `.` metacharacter, the anchored regex match
coincides with the anchored case-insensitive character comparison. -/
theorem matchHere_no_dot : ∀ (pat : List Char), '.' ∉ pat →
    ∀ text, matchHere pat text = substrHere pat text := by
  intro pat
  induction pat with
  | nil => intro _ text; rfl
  | cons p ps ih =>
      intro hd text
      have hp' : p ≠ '.' := by
        intro h
        exact hd (by rw [h]; exact List.mem_cons_self '.' ps)
      have hp : (p == '.') = false := by simpa using hp'
      cases text with
      | nil => rfl
      | cons t ts =>
          simp only [matchHere, substrHere, hp, Bool.false_or]
          rw [ih (fun hmem => hd (List.mem_cons_of_mem p hmem)) ts]

/-- On patterns without the `.` metacharacter, the unanchored regex
search coincides with case-insensitive substring search. -/
theorem regexFind_no_dot (pat : List Char) (hd : '.' ∉ pat) :
    ∀ text, regexFind pat text = substrFind pat text := by
  intro text
  induction text with
  | nil => simp only [regexFind, substrFind, matchHere_no_dot pat hd]
  | cons t ts ih =>
      simp only [regexFind, substrFind, matchHere_no_dot pat hd, ih]

/-- C9 amended: for a non-empty search string `s` that contains no regex
metacharacter other than possibly the `.` wildcard (the region on which
the `$regex` model is faithful; patterns with quantifiers, groups,
classes, anchors or escapes follow full `$regex` semantics or make the
query throw a 500, and are not substring containment either), the listing
returns exactly the posts whose title matches `s` as a case-insensitive
regular expression, each annotated with its like count; for such search
strings that moreover contain no `.`, the match coincides with
case-insensitive substring containment. -/
theorem getpost_search_regex_semantics (posts : List Post) (s : String)
    (x : Post × Nat) (hs : s ≠ "") (_hmod : patternModelled s = true) :
    (x ∈ getpost posts (some s) none none ↔
      x.1 ∈ posts ∧ regexMatchCI s x.1.title = true ∧
      x.2 = x.1.likes.length) ∧
    (∀ pat text : String, patternModelled pat = true → '.' ∉ pat.data →
      regexMatchCI pat text = containsCI pat text) := by
  constructor
  · have ht : truthy (some s) = true := by simp [truthy, hs]
    simp only [getpost]
    rw [if_pos ht]
    rw [if_neg (by decide : ¬(truthy (none : Option String)) = true)]
    rw [if_neg (by decide :
      ¬((none : Option String) == some "post_date") = true)]
    constructor
    · intro hx
      obtain ⟨p, hpmem, hxp⟩ := List.mem_map.mp hx
      have hp' := List.mem_mergeSort.mp hpmem
      have hmf := List.mem_filter.mp hp'
      rw [← hxp]
      exact ⟨hmf.1, hmf.2, rfl⟩
    · rintro ⟨h1, h2, h3⟩
      apply List.mem_map.mpr
      refine ⟨x.1, List.mem_mergeSort.mpr (List.mem_filter.mpr ⟨h1, h2⟩), ?_⟩
      obtain ⟨a, b⟩ := x
      simp only at h3
      rw [h3]
  · intro pat text _ hd
    simp only [regexMatchCI, containsCI, regexFind_no_dot pat.data hd]

/-- Witness for C9's amended theorem: searching `FOOT` finds `post1`
(titled `Football news`) case-insensitively, and `foot` (no
metacharacters) behaves as substring containment. -/
theorem getpost_search_regex_semantics_witness :
    ((post1, 0) ∈ getpost [post1] (some "FOOT") none none ↔
      post1 ∈ [post1] ∧ regexMatchCI "FOOT" post1.title = true ∧
      0 = post1.likes.length) ∧
    (∀ pat text : String, patternModelled pat = true → '.' ∉ pat.data →
      regexMatchCI pat text = containsCI pat text) :=
  getpost_search_regex_semantics [post1] "FOOT" (post1, 0) (by decide)
    (by decide)

/-! ### C1: like toggling -/

/-- The (post, user) like relation observed through the stores: the
designated post and user are present and both sides record the relation
`cnt` times (`cnt = 1`: Liked, `cnt = 0`: Not-Liked). -/
def likeState (posts : List Post) (users : List User) (pid uid : Id)
    (cnt : Nat) : Prop :=
  ∃ post user,
    posts.find? (fun p => p.id == pid) = some post ∧
    users.find? (fun u => u.id == uid) = some user ∧
    post.likes.count uid = cnt ∧
    user.likedPosts.count pid = cnt

/-- One `toggleLike` flips the like relation: Not-Liked becomes Liked and
Liked becomes Not-Liked, on both the post side and the user side. -/
theorem toggleLike_flip (posts : List Post) (users : List User)
    (pid uid : Id) (cnt : Nat) (hc : cnt ≤ 1)
    (h : likeState posts users pid uid cnt) :
    likeState (toggleLike posts users uid pid).2.2.1
      (toggleLike posts users uid pid).2.2.2 pid uid (1 - cnt) := by
  obtain ⟨post, user, hp, hu, hcp, hcu⟩ := h
  have hpid : (post.id == pid) = true :=
    List.find?_some (p := fun q : Post => q.id == pid) hp
  interval_cases cnt
  · have hmem : uid ∉ post.likes := by
      intro hm
      have := List.count_pos_iff.mpr hm
      omega
    have hcont : post.likes.contains uid = false := by simpa using hmem
    have hmemu : pid ∉ user.likedPosts := by
      intro hm
      have := List.count_pos_iff.mpr hm
      omega
    have hcontu : user.likedPosts.contains pid = false := by simpa using hmemu
    refine ⟨{ post with likes := post.likes ++ [uid] },
      { user with likedPosts :=
          if user.likedPosts.contains pid then user.likedPosts
          else user.likedPosts ++ [pid] }, ?_, ?_, ?_, ?_⟩
    · simp only [toggleLike, hp, hcont, Bool.false_eq_true, if_false]
      rw [find?_map_ite Post.id pid
        (fun _ => { post with likes := post.likes ++ [uid] })
        posts (fun x _ => hpid), hp]
      rfl
    · simp only [toggleLike, hp, hcont, Bool.false_eq_true, if_false]
      rw [find?_map_ite User.id uid
        (fun u => { u with likedPosts :=
          if u.likedPosts.contains pid then u.likedPosts
          else u.likedPosts ++ [pid] })
        users (fun x hx => hx), hu]
      rfl
    · simp [List.count_append, hcp, List.count_singleton]
    · simp [hcontu, hmemu, List.count_append, hcu, List.count_singleton]
  · have hmem : uid ∈ post.likes := List.count_pos_iff.mp (by omega)
    have hcont : post.likes.contains uid = true := by simpa using hmem
    refine ⟨{ post with likes := post.likes.erase uid },
      { user with likedPosts :=
          user.likedPosts.filter (fun i => !(i == pid)) }, ?_, ?_, ?_, ?_⟩
    · simp only [toggleLike, hp, hcont, if_true]
      rw [find?_map_ite Post.id pid
        (fun _ => { post with likes := post.likes.erase uid })
        posts (fun x _ => hpid), hp]
      rfl
    · simp only [toggleLike, hp, hcont, if_true]
      rw [find?_map_ite User.id uid
        (fun u => { u with likedPosts :=
          u.likedPosts.filter (fun i => !(i == pid)) })
        users (fun x hx => hx), hu]
      rfl
    · simp [List.count_erase_self, hcp]
    · simpa using count_filter_ne user.likedPosts pid

/-- The like relation after `n` toggles holds iff it held before XOR `n`
is odd (stated through the counts). -/
theorem iterToggle_likeState (uid pid : Id) (n : Nat) :
    ∀ (posts : List Post) (users : List User) (cnt : Nat), cnt ≤ 1 →
    likeState posts users pid uid cnt →
    likeState (iterToggle uid pid n (posts, users)).1
      (iterToggle uid pid n (posts, users)).2 pid uid
      (if n % 2 = 1 then 1 - cnt else cnt) := by
  induction n with
  | zero =>
      intro posts users cnt hc h
      simpa using h
  | succ n ih =>
      intro posts users cnt hc h
      have hstep := toggleLike_flip posts users pid uid cnt hc h
      have hnext := ih (toggleLike posts users uid pid).2.2.1
        (toggleLike posts users uid pid).2.2.2 (1 - cnt) (by omega) hstep
      have hiter : iterToggle uid pid (n + 1) (posts, users)
          = iterToggle uid pid n ((toggleLike posts users uid pid).2.2.1,
            (toggleLike posts users uid pid).2.2.2) := rfl
      rw [hiter]
      rcases Nat.mod_two_eq_zero_or_one n with hpar | hpar
      · have h1 : (n + 1) % 2 = 1 := by omega
        rw [h1]
        simpa [hpar] using hnext
      · have h1 : (n + 1) % 2 = 0 := by omega
        rw [h1]
        have hcc : 1 - (1 - cnt) = cnt := by omega
        simpa [hpar, hcc] using hnext

/-- C1: starting from the Not-Liked state for `(p, u)`, after an odd
number of `toggleLike` applications `u`'s id is in `p.likes` and `p`'s id
is in `u.likedPosts`; after an even number neither holds; and at every
point the two memberships agree (bidirectional invariant). -/
theorem toggleLike_parity (posts : List Post) (users : List User)
    (pid uid : Id) (post : Post) (user : User) (n : Nat)
    (hp : posts.find? (fun p => p.id == pid) = some post)
    (hu : users.find? (fun u => u.id == uid) = some user)
    (h1 : uid ∉ post.likes) (h2 : pid ∉ user.likedPosts) :
    ∃ post' user',
      (iterToggle uid pid n (posts, users)).1.find? (fun p => p.id == pid)
        = some post' ∧
      (iterToggle uid pid n (posts, users)).2.find? (fun u => u.id == uid)
        = some user' ∧
      (uid ∈ post'.likes ↔ n % 2 = 1) ∧
      (pid ∈ user'.likedPosts ↔ n % 2 = 1) ∧
      (uid ∈ post'.likes ↔ pid ∈ user'.likedPosts) := by
  have h0 : likeState posts users pid uid 0 :=
    ⟨post, user, hp, hu, List.count_eq_zero_of_not_mem h1,
      List.count_eq_zero_of_not_mem h2⟩
  obtain ⟨post', user', hp', hu', hcp, hcu⟩ :=
    iterToggle_likeState uid pid n posts users 0 (by omega) h0
  rcases Nat.mod_two_eq_zero_or_one n with hpar | hpar
  · rw [hpar] at hcp hcu
    simp only [if_neg (by omega : ¬(0 : Nat) = 1)] at hcp hcu
    have m1 : uid ∉ post'.likes := List.count_eq_zero.mp hcp
    have m2 : pid ∉ user'.likedPosts := List.count_eq_zero.mp hcu
    exact ⟨post', user', hp', hu', by simp [hpar, m1], by simp [hpar, m2],
      by simp [m1, m2]⟩
  · rw [hpar] at hcp hcu
    simp at hcp hcu
    have m1 : uid ∈ post'.likes :=
      List.count_pos_iff.mp (by rw [hcp]; exact Nat.one_pos)
    have m2 : pid ∈ user'.likedPosts :=
      List.count_pos_iff.mp (by rw [hcu]; exact Nat.one_pos)
    exact ⟨post', user', hp', hu', by simp [hpar, m1], by simp [hpar, m2],
      by simp [m1, m2]⟩

/-- Witness for C1: three toggles by user 5 on post 1. -/
theorem toggleLike_parity_witness :
    ∃ post' user',
      (iterToggle 5 1 3 ([post1], [user5])).1.find? (fun p => p.id == 1)
        = some post' ∧
      (iterToggle 5 1 3 ([post1], [user5])).2.find? (fun u => u.id == 5)
        = some user' ∧
      (5 ∈ post'.likes ↔ 3 % 2 = 1) ∧
      (1 ∈ user'.likedPosts ↔ 3 % 2 = 1) ∧
      (5 ∈ post'.likes ↔ 1 ∈ user'.likedPosts) :=
  toggleLike_parity [post1] [user5] 1 5 post1 user5 3 (by decide) (by decide)
    (by decide) (by decide)

end BaanBoard
